import Mathlib

/-
Verification of the repository-synchronization engine (the kas `repos`
module, `src/kas/repos.py`).  The file gives a shallow embedding of the
claim-relevant parts of the source: the layer filtering of `Repo.factory`,
the computed `layers` property, the patch resolution and application of
`RepoImpl.apply_patches_async`, the fetch algorithm `RepoImpl.fetch_async`,
the checkout algorithm `RepoImpl.checkout`, and an interleaving model of the
reference-cache population race.  External commands are represented by an
environment (oracle) providing each command invocation result, following
the specification of the Command Runner collaborator, which returns an exit
code and captured text.
-/

/-! ## Python string primitives used by the source -/

/-- Whitespace characters stripped by the Python `str.rstrip()` method
(space, tab, newline, carriage return, vertical tab, form feed). -/
def pyIsSpace (c : Char) : Bool :=
  c == ' ' || c == '\t' || c == '\n' || c == '\r' ||
  c == Char.ofNat 11 || c == Char.ofNat 12

/-- Python `s.rstrip()`: drop trailing whitespace. -/
def pyRstrip (s : String) : String :=
  String.mk ((s.toList.reverse.dropWhile pyIsSpace).reverse)

/-- Python `s.lstrip()`: drop leading whitespace. -/
def pyLstrip (s : String) : String :=
  String.mk (s.toList.dropWhile pyIsSpace)

/-- Python `s.strip()`: drop whitespace on both sides. -/
def pyStrip (s : String) : String :=
  pyLstrip (pyRstrip s)

/-- Python `s.lower()` (character-wise lowering, agreeing with Python on
the ASCII names the source compares). -/
def pyLower (s : String) : String :=
  String.mk (s.toList.map Char.toLower)

/-- Python `s.rstrip(chars)`: drop trailing characters belonging to `cs`.
Used by the layers property with `chars = os.sep + '.'`. -/
def pyRstripChars (s : String) (cs : List Char) : String :=
  String.mk ((s.toList.reverse.dropWhile (fun c => cs.contains c)).reverse)

/-- Whether the last character of `s` is `c` (Python `s.endswith(c)` for a
single-character suffix). -/
def strEndsWithChar (s : String) (c : Char) : Bool :=
  s.toList.reverse.head? == some c

/-- Python `posixpath.join(a, b)` for two components, as used by
`os.path.join` throughout the source: an absolute `b` replaces `a`; an
empty `a` or one ending in the separator is concatenated directly;
otherwise a separator is inserted. -/
def posixJoin (a b : String) : String :=
  if b.toList.head? == some '/' then b
  else if a == "" || strEndsWithChar a '/' then a ++ b
  else a ++ "/" ++ b

/-! ## Values of a Python configuration dictionary -/

/-- Python values that can appear as the configured value of a layer entry;
`pyStr` below is the Python `str()` rendering of each. -/
inductive PyVal where
  | none
  | bool (b : Bool)
  | int (n : Int)
  | str (s : String)
deriving DecidableEq

/-- Python `str(v)` for a `PyVal`. -/
def pyStr : PyVal → String
  | .none => "None"
  | .bool true => "True"
  | .bool false => "False"
  | .int n => toString n
  | .str s => s

/-! ## Repo.factory layer filtering (src/kas/repos.py lines 97-101) -/

/-- The disable sentinel list of `Repo.factory`. -/
def disableSentinels : List String :=
  ["disabled", "excluded", "n", "no", "0", "false"]

/-- Embeds the layer filtering of `Repo.factory`: the layer dictionary is an
association list in declaration (insertion) order, and a key is kept when
`str(value).lower()` is not a disable sentinel. -/
def factoryLayers (d : List (String × PyVal)) : List String :=
  (d.filter (fun x => decide (pyLower (pyStr x.2) ∉ disableSentinels))).map Prod.fst

/-- The default layer dictionary substituted by `Repo.factory` when the
configuration has no `layers` key (Python `\x7b'': None\x7d`). -/
def defaultLayersDict : List (String × PyVal) :=
  [("", PyVal.none)]

/-- Embeds the computed `layers` property of `Repo.__getattr__`
(src/kas/repos.py lines 55-57): join each layer name to the repository path
and strip trailing separators and dots. -/
def computedLayers (path : String) (layerNames : List String) : List String :=
  layerNames.map (fun layer => pyRstripChars (posixJoin path layer) ['/', '.'])

/-! ## Basic string lemmas -/

theorem string_toList_append (a b : String) : (a ++ b).toList = a.toList ++ b.toList := rfl

theorem string_mk_toList (s : String) : String.mk s.toList = s := rfl

theorem string_toList_ne_nil (s : String) (hne : s ≠ "") : s.toList ≠ [] := by
  intro h
  apply hne
  cases s with
  | mk d =>
      have hd : d = [] := h
      rw [hd]

/-- A string whose last character is neither of the stripped characters is
recovered by `pyRstripChars` after appending a single separator. -/
theorem pyRstripChars_append_sep (s : String) (hne : s ≠ "")
    (h2 : strEndsWithChar s '/' = false) (h3 : strEndsWithChar s '.' = false) :
    pyRstripChars (s ++ "/") ['/', '.'] = s := by
  unfold pyRstripChars
  rw [string_toList_append, List.reverse_append]
  have hsep : (("/" : String).toList.reverse ++ s.toList.reverse) = '/' :: s.toList.reverse := rfl
  rw [hsep, List.dropWhile_cons]
  have hcontains : (['/', '.'].contains '/') = true := rfl
  rw [hcontains]
  simp only [if_true]
  cases hrev : s.toList.reverse with
  | nil =>
      exact absurd (by simpa using congrArg List.reverse hrev) (string_toList_ne_nil s hne)
  | cons c rest =>
      have hc2 : (c == '/') = false := by
        unfold strEndsWithChar at h2
        rw [hrev] at h2
        simpa using h2
      have hc3 : (c == '.') = false := by
        unfold strEndsWithChar at h3
        rw [hrev] at h3
        simpa using h3
      rw [List.dropWhile_cons]
      have hcc : (['/', '.'].contains c) = false := by
        simp only [List.contains_cons, List.contains_nil]
        rw [Bool.or_eq_false_iff, Bool.or_eq_false_iff]
        exact ⟨by simpa [BEq.comm] using hc2, by simpa [BEq.comm] using hc3, rfl⟩
      rw [hcc]
      simp only [Bool.false_eq_true, if_false]
      rw [← hrev, List.reverse_reverse]
      exact string_mk_toList s

/-- Joining the empty component appends a trailing separator when the left
component is non-empty and does not already end in one. -/
theorem posixJoin_empty_right (a : String) (hne : a ≠ "")
    (h2 : strEndsWithChar a '/' = false) : posixJoin a "" = a ++ "/" := by
  unfold posixJoin
  have hb : ((("" : String).toList.head? == some '/') : Bool) = false := rfl
  have ha : (a == "") = false := by
    cases h : a == ""
    · rfl
    · exact absurd (eq_of_beq h) hne
  rw [hb, ha, h2]
  simp only [Bool.or_self, Bool.false_eq_true, if_false]
  exact String.append_empty (a ++ "/")

/-! ## Claim C8 -/

/-- C8: in `Repo.factory`, a layer is excluded from the computed layer list
if and only if the lower-cased string form of its configured value is one of
the disable sentinels; every other value (of any type) includes the layer,
and the included layers preserve their declaration order (the result is a
sublist of the declared key sequence). -/
theorem factory_layer_filter (d : List (String × PyVal)) :
    (∀ name : String,
      name ∈ factoryLayers d ↔
        ∃ v : PyVal, (name, v) ∈ d ∧ pyLower (pyStr v) ∉ disableSentinels) ∧
    List.Sublist (factoryLayers d) (d.map Prod.fst) := by
  constructor
  · intro name
    constructor
    · intro h
      rcases List.mem_map.mp h with ⟨⟨n, v⟩, hmem, hfst⟩
      rcases List.mem_filter.mp hmem with ⟨hd, hp⟩
      subst hfst
      exact ⟨v, hd, by simpa using hp⟩
    · rintro ⟨v, hd, hs⟩
      exact List.mem_map.mpr
        ⟨(name, v), List.mem_filter.mpr ⟨hd, by simpa using hs⟩, rfl⟩
  · exact List.Sublist.map Prod.fst (List.filter_sublist d)

/-! ## Claim C10 -/

/-- C10: a repository configuration with no `layers` key gets the default
dictionary whose single value `None` stringifies to a non-sentinel, so the
repository has exactly one computed layer, and (when the path does not end
in a separator or a dot and is non-empty) that layer equals the repository
path itself. -/
theorem factory_default_layer (path : String) (hne : path ≠ "")
    (h2 : strEndsWithChar path '/' = false)
    (h3 : strEndsWithChar path '.' = false) :
    pyLower (pyStr PyVal.none) = "none" ∧
    "none" ∉ disableSentinels ∧
    factoryLayers defaultLayersDict = [""] ∧
    computedLayers path (factoryLayers defaultLayersDict) = [path] := by
  refine ⟨by decide, by decide, by decide, ?_⟩
  have hdict : factoryLayers defaultLayersDict = [""] := by decide
  rw [hdict]
  unfold computedLayers
  simp only [List.map_cons, List.map_nil]
  rw [posixJoin_empty_right path hne h2,
      pyRstripChars_append_sep path hne h2 h3]

/-- Witness for C10 at a concrete path. -/
theorem factory_default_layer_witness :
    computedLayers "/work/repo" (factoryLayers defaultLayersDict) = ["/work/repo"] :=
  (factory_default_layer "/work/repo" (by decide) (by decide) (by decide)).2.2.2

/-! ## Patch model (RepoImpl.apply_patches_async, src/kas/repos.py lines 284-376) -/

/-- A patch entry as produced by `Repo.factory` (id, patch repository name,
path inside that repository); the factory guarantees `repo` is present. -/
structure PatchDecl where
  id : String
  repo : String
  path : String
deriving DecidableEq

/-- The repository variants dispatched by `Repo.factory`. -/
inductive Variant where
  | git
  | hg
deriving DecidableEq

/-- The claim-relevant fields of a constructed repository.  `qualified_name`
stands for the computed property of the same name (its URL-sanitizing
derivation is not needed by any claim). -/
structure KRepo where
  name : String
  path : String
  qualified_name : String
  refspec : Option String
  operations_disabled : Bool
  variant : Variant
  patches : List PatchDecl

/-- Errors arising while reading a `series` file. -/
inductive SeriesErr where
  | emptyName (ln : Nat)
  | notFound (p : String)
deriving DecidableEq

/-- Whether a series line is processed: the source skips lines that are
empty after removing the trailing newline and lines starting with `#`
(lines are modelled without their trailing newline; `startswith` of the
single character `#` is a first-character test). -/
def seriesKeep (line : String) : Bool :=
  !(line == "" || line.toList.head? == some '#')

/-- Characters before the first occurrence of the two-character marker
`" #"` (Python `line.split(' #')[0]`). -/
def takeBeforeMarker : List Char → List Char
  | [] => []
  | ' ' :: '#' :: _ => []
  | c :: rest => c :: takeBeforeMarker rest

/-- The patch file name extracted from a processed series line:
`line.split(' #')[0].rstrip()`. -/
def seriesName (line : String) : String :=
  pyRstrip (String.mk (takeBeforeMarker line.toList))

/-- Embeds the series-file reading loop of `apply_patches_async`
(src/kas/repos.py lines 318-337): `ln` is the current line number (the
source increments its counter before processing, so the first line is 1);
a kept line with an empty extracted name is a parse error carrying the line
number, a kept line whose joined path is not a file raises
`FileNotFoundError`, and the remaining kept lines yield their joined paths
in order. -/
def resolveSeriesAux (isFile : String → Bool) (dir : String) :
    Nat → List String → Except SeriesErr (List String)
  | _, [] => .ok []
  | ln, line :: rest =>
    if seriesKeep line then
      let pn := seriesName line
      if pn == "" then .error (.emptyName ln)
      else
        let p := posixJoin dir pn
        if isFile p then
          match resolveSeriesAux isFile dir (ln + 1) rest with
          | .error e => .error e
          | .ok ps => .ok (p :: ps)
        else .error (.notFound p)
    else resolveSeriesAux isFile dir (ln + 1) rest

/-- Series resolution starting at line number 1, as the source does. -/
def resolveSeries (isFile : String → Bool) (dir : String)
    (lines : List String) : Except SeriesErr (List String) :=
  resolveSeriesAux isFile dir 1 lines

/-- Result of `apply_patches_async`: a returned exit code, or an uncaught
`FileNotFoundError` carrying the missing path. -/
inductive PRes where
  | code (n : Nat)
  | exn (path : String)
deriving DecidableEq

/-- Modelled from the spec: the Command Runner (`libkas.run_cmd_async`) is
not part of src/; per the specification it executes a command and returns
the exit code and captured text.  This environment provides, for one run of
`apply_patches_async`, the registry lookup (`get_context().config.repo_dict`,
mapping a repository name to that repository's path), the filesystem
queries, the series file contents (lines without their trailing newline),
and the exit code of each external command; the apply, stage and commit
results are keyed by the patch file being processed. -/
structure PatchEnv where
  repoPath : String → Option String
  isFile : String → Bool
  isDir : String → Bool
  seriesLines : String → List String
  prepareRetc : Nat
  applyRetc : String → Nat
  addRetc : String → Nat
  commitRetc : String → Nat

/-- Embeds the resolution phase of `apply_patches_async` (src/kas/repos.py
lines 296-344): each declared patch is resolved into concrete
`(filePath, patchId)` pairs; a missing registry entry, a path that is
neither a file nor a series directory, or a malformed series line returns
exit code 1, and a series-listed file that does not exist raises
`FileNotFoundError`. -/
def resolvePatches (env : PatchEnv) : List PatchDecl → Except PRes (List (String × String))
  | [] => .ok []
  | patch :: rest =>
    match env.repoPath patch.repo with
    | none => .error (.code 1)
    | some rpath =>
      let path := posixJoin rpath patch.path
      if env.isFile path then
        match resolvePatches env rest with
        | .error e => .error e
        | .ok l => .ok ((path, patch.id) :: l)
      else if env.isDir path && env.isFile (posixJoin path "series") then
        match resolveSeries env.isFile path (env.seriesLines (posixJoin path "series")) with
        | .error (.emptyName _) => .error (.code 1)
        | .error (.notFound p) => .error (.exn p)
        | .ok paths =>
          match resolvePatches env rest with
          | .error e => .error e
          | .ok l => .ok (paths.map (fun p => (p, patch.id)) ++ l)
      else .error (.code 1)

/-- Trace of the external commands run by the application phase. -/
inductive AEvent where
  | prepare (retc : Nat)
  | applyP (path pid : String) (retc : Nat)
  | addP (path pid : String) (retc : Nat)
  | commitP (path pid : String) (retc : Nat)
deriving DecidableEq

/-- Embeds the application loop of `apply_patches_async` (src/kas/repos.py
lines 346-376): for each resolved pair run apply, then stage-all, then
commit; the first non-zero exit code returns 1 immediately. -/
def applyLoop (env : PatchEnv) : List (String × String) → Nat × List AEvent
  | [] => (0, [])
  | (path, pid) :: rest =>
    let r1 := env.applyRetc path
    if r1 ≠ 0 then (1, [.applyP path pid r1])
    else
      let r2 := env.addRetc path
      if r2 ≠ 0 then (1, [.applyP path pid r1, .addP path pid r2])
      else
        let r3 := env.commitRetc path
        if r3 ≠ 0 then
          (1, [.applyP path pid r1, .addP path pid r2, .commitP path pid r3])
        else
          let res := applyLoop env rest
          (res.1, .applyP path pid r1 :: .addP path pid r2 :: .commitP path pid r3 :: res.2)

/-- Embeds `RepoImpl.apply_patches_async` (src/kas/repos.py lines 284-376):
skip when operations are disabled or no patches are declared, run the
prepare-branch command (its non-zero exit code is returned as is), resolve
all patches, then run the application loop. -/
def apply_patches_async (env : PatchEnv) (r : KRepo) : PRes × List AEvent :=
  if r.operations_disabled || r.patches.isEmpty then (.code 0, [])
  else
    let rp := env.prepareRetc
    if rp ≠ 0 then (.code rp, [.prepare rp])
    else
      match resolvePatches env r.patches with
      | .error e => (e, [.prepare rp])
      | .ok pairs =>
        let res := applyLoop env pairs
        (.code res.1, .prepare rp :: res.2)

/-! ## Application-loop characterization lemmas -/

/-- All three per-patch commands succeed for pair `p`. -/
abbrev patchOk (env : PatchEnv) (p : String × String) : Prop :=
  env.applyRetc p.1 = 0 ∧ env.addRetc p.1 = 0 ∧ env.commitRetc p.1 = 0

/-- The three events produced by one fully processed pair. -/
def patchTriple (env : PatchEnv) (p : String × String) : List AEvent :=
  [.applyP p.1 p.2 (env.applyRetc p.1),
   .addP p.1 p.2 (env.addRetc p.1),
   .commitP p.1 p.2 (env.commitRetc p.1)]

/-- The events produced by the pair at which the loop fails: the commands
up to and including the first one with a non-zero exit code. -/
def patchFailEvents (env : PatchEnv) (p : String × String) : List AEvent :=
  if env.applyRetc p.1 ≠ 0 then [.applyP p.1 p.2 (env.applyRetc p.1)]
  else if env.addRetc p.1 ≠ 0 then
    [.applyP p.1 p.2 (env.applyRetc p.1), .addP p.1 p.2 (env.addRetc p.1)]
  else
    [.applyP p.1 p.2 (env.applyRetc p.1), .addP p.1 p.2 (env.addRetc p.1),
     .commitP p.1 p.2 (env.commitRetc p.1)]

/-- An event recording a successful commit command. -/
def isCommitDone : AEvent → Bool
  | .commitP _ _ 0 => true
  | _ => false

/-- Number of successful commits recorded in a trace. -/
def commitCount (tr : List AEvent) : Nat :=
  (tr.filter isCommitDone).length

theorem commitCount_append (a b : List AEvent) :
    commitCount (a ++ b) = commitCount a + commitCount b := by
  simp [commitCount, List.filter_append]

theorem commitCount_triple (env : PatchEnv) (p : String × String)
    (h : patchOk env p) : commitCount (patchTriple env p) = 1 := by
  obtain ⟨h1, h2, h3⟩ := h
  simp [commitCount, patchTriple, isCommitDone, h1, h2, h3]

theorem isCommitDone_commitP (path pid : String) (r : Nat) :
    isCommitDone (.commitP path pid r) = (r == 0) := by
  cases r <;> rfl

theorem commitCount_failEvents (env : PatchEnv) (p : String × String)
    (h : ¬ patchOk env p) : commitCount (patchFailEvents env p) = 0 := by
  unfold patchFailEvents
  by_cases h1 : env.applyRetc p.1 = 0
  · by_cases h2 : env.addRetc p.1 = 0
    · have h3 : env.commitRetc p.1 ≠ 0 := fun hc => h ⟨h1, h2, hc⟩
      rw [if_neg (by simp [h1]), if_neg (by simp [h2])]
      simp [commitCount, isCommitDone, isCommitDone_commitP, h3]
    · rw [if_neg (by simp [h1]), if_pos h2]
      simp [commitCount, isCommitDone]
  · rw [if_pos h1]
    simp [commitCount, isCommitDone]

theorem commitCount_join_triples (env : PatchEnv) (l : List (String × String))
    (h : ∀ p ∈ l, patchOk env p) :
    commitCount ((l.map (patchTriple env)).flatten) = l.length := by
  induction l with
  | nil => rfl
  | cons p rest ih =>
      simp only [List.map_cons, List.flatten_cons, List.length_cons]
      rw [commitCount_append, commitCount_triple env p (h p (by simp)),
          ih (fun q hq => h q (by simp [hq]))]
      omega

theorem commitCount_take_triples (env : PatchEnv) (pairs : List (String × String))
    (i : Nat) (hi : i ≤ pairs.length)
    (hok : ∀ j (hj : j < i), patchOk env (pairs.get ⟨j, Nat.lt_of_lt_of_le hj hi⟩)) :
    commitCount (((pairs.take i).map (patchTriple env)).flatten) = i := by
  induction pairs generalizing i with
  | nil =>
      have : i = 0 := Nat.le_zero.mp (by simpa using hi)
      subst this
      rfl
  | cons p rest ih =>
      cases i with
      | zero => rfl
      | succ i =>
          have h0 : patchOk env p := hok 0 (Nat.succ_pos i)
          simp only [List.take_succ_cons, List.map_cons, List.flatten_cons]
          rw [commitCount_append, commitCount_triple env p h0,
              ih i (Nat.le_of_succ_le_succ (by simpa using hi))
                (fun j hj => hok (j + 1) (Nat.succ_lt_succ hj))]
          omega

/-- If every pair succeeds, the loop returns 0 and the trace is the
concatenation of the per-pair triples, in order. -/
theorem applyLoop_ok (env : PatchEnv) (pairs : List (String × String))
    (h : ∀ p ∈ pairs, patchOk env p) :
    applyLoop env pairs = (0, (pairs.map (patchTriple env)).flatten) := by
  induction pairs with
  | nil => rfl
  | cons p rest ih =>
      obtain ⟨h1, h2, h3⟩ := h p (by simp)
      obtain ⟨path, pid⟩ := p
      simp only at h1 h2 h3
      simp only [applyLoop, h1, h2, h3, ne_eq, not_true_eq_false, if_false,
                 ite_false, not_false_eq_true]
      rw [ih (fun q hq => h q (by simp [hq]))]
      simp [patchTriple, h1, h2, h3]

/-- If the pairs before index `i` all succeed and the pair at `i` fails,
the loop returns 1 with exactly the triples of the first `i` pairs followed
by the failing prefix of pair `i`. -/
theorem applyLoop_fail (env : PatchEnv) (pairs : List (String × String))
    (i : Nat) (hi : i < pairs.length)
    (hok : ∀ j (hj : j < i), patchOk env (pairs.get ⟨j, Nat.lt_trans hj hi⟩))
    (hfail : ¬ patchOk env (pairs.get ⟨i, hi⟩)) :
    applyLoop env pairs =
      (1, ((pairs.take i).map (patchTriple env)).flatten ++
            patchFailEvents env (pairs.get ⟨i, hi⟩)) := by
  induction pairs generalizing i with
  | nil => exact absurd hi (by simp)
  | cons p rest ih =>
      cases i with
      | zero =>
          simp only [List.get] at hfail
          obtain ⟨path, pid⟩ := p
          simp only [List.take_zero, List.map_nil, List.flatten_nil,
                     List.nil_append, List.get]
          by_cases h1 : env.applyRetc path = 0
          · by_cases h2 : env.addRetc path = 0
            · have h3 : env.commitRetc path ≠ 0 := fun hc => hfail ⟨h1, h2, hc⟩
              simp [applyLoop, patchFailEvents, h1, h2, h3]
            · simp [applyLoop, patchFailEvents, h1, h2]
          · simp [applyLoop, patchFailEvents, h1]
      | succ i =>
          have hok0 : patchOk env p := hok 0 (Nat.succ_pos i)
          obtain ⟨h1, h2, h3⟩ := hok0
          obtain ⟨path, pid⟩ := p
          simp only at h1 h2 h3
          have hi2 : i < rest.length := Nat.lt_of_succ_lt_succ hi
          have hrec := ih i hi2
            (fun j hj => hok (j + 1) (Nat.succ_lt_succ hj))
            (by simpa using hfail)
          simp only [applyLoop, h1, h2, h3, ne_eq, not_true_eq_false, if_false,
                     ite_false, not_false_eq_true]
          rw [hrec]
          simp [patchTriple, h1, h2, h3, List.take_succ_cons]

/-! ## Claim C1 -/

/-- C1: for a repository with a non-empty resolved patch list,
`apply_patches_async` processes the resolved `(filePath, patchId)` pairs
strictly in declaration order, running apply, then stage-all, then commit
for each; if every command succeeds the pipeline returns 0 with one commit
per patch, and the first non-zero result from apply, stage or commit makes
the pipeline return 1, with no later patch command executed, the commits of
the earlier patches left in place, and exactly one commit per successfully
processed patch. -/
theorem apply_patches_pipeline (env : PatchEnv) (r : KRepo)
    (pairs : List (String × String))
    (hdis : r.operations_disabled = false)
    (hne : r.patches.isEmpty = false)
    (hprep : env.prepareRetc = 0)
    (hres : resolvePatches env r.patches = .ok pairs) :
    ((∀ p ∈ pairs, patchOk env p) →
       apply_patches_async env r =
         (.code 0, .prepare 0 :: (pairs.map (patchTriple env)).flatten) ∧
       commitCount (apply_patches_async env r).2 = pairs.length) ∧
    (∀ i (hi : i < pairs.length),
       (∀ j (hj : j < i), patchOk env (pairs.get ⟨j, Nat.lt_trans hj hi⟩)) →
       ¬ patchOk env (pairs.get ⟨i, hi⟩) →
       apply_patches_async env r =
         (.code 1, .prepare 0 ::
           (((pairs.take i).map (patchTriple env)).flatten ++
             patchFailEvents env (pairs.get ⟨i, hi⟩))) ∧
       commitCount (apply_patches_async env r).2 = i) := by
  have hunf : apply_patches_async env r =
      (.code (applyLoop env pairs).1, .prepare 0 :: (applyLoop env pairs).2) := by
    simp [apply_patches_async, hdis, hne, hprep, hres]
  constructor
  · intro hall
    have hloop := applyLoop_ok env pairs hall
    rw [hunf, hloop]
    refine ⟨rfl, ?_⟩
    have : commitCount (.prepare 0 :: (pairs.map (patchTriple env)).flatten) =
        commitCount ((pairs.map (patchTriple env)).flatten) := by
      simp [commitCount, isCommitDone]
    rw [this]
    exact commitCount_join_triples env pairs hall
  · intro i hi hok hfail
    have hloop := applyLoop_fail env pairs i hi hok hfail
    rw [hunf, hloop]
    refine ⟨rfl, ?_⟩
    have hcons : commitCount (.prepare 0 ::
        (((pairs.take i).map (patchTriple env)).flatten ++
          patchFailEvents env (pairs.get ⟨i, hi⟩))) =
        commitCount (((pairs.take i).map (patchTriple env)).flatten) +
          commitCount (patchFailEvents env (pairs.get ⟨i, hi⟩)) := by
      rw [← commitCount_append]
      simp [commitCount, isCommitDone]
    rw [hcons, commitCount_failEvents env _ hfail,
        commitCount_take_triples env pairs i (Nat.le_of_lt hi)
          (fun j hj => hok j hj)]
    omega

/-- Concrete data for the C1 witness: three declared patches resolving to
three files, of which the second fails to apply. -/
def patchEnvA : PatchEnv where
  repoPath := fun n => if n == "r2" then some "/r2" else none
  isFile := fun p => p == "/r2/a.patch" || p == "/r2/b.patch" || p == "/r2/c.patch"
  isDir := fun _ => false
  seriesLines := fun _ => []
  prepareRetc := 0
  applyRetc := fun p => if p == "/r2/b.patch" then 1 else 0
  addRetc := fun _ => 0
  commitRetc := fun _ => 0

def patchRepoA : KRepo where
  name := "main"
  path := "/work/main"
  qualified_name := "example.com.main"
  refspec := some "master"
  operations_disabled := false
  variant := .git
  patches := [⟨"p1", "r2", "a.patch"⟩, ⟨"p2", "r2", "b.patch"⟩, ⟨"p3", "r2", "c.patch"⟩]

def patchPairsA : List (String × String) :=
  [("/r2/a.patch", "p1"), ("/r2/b.patch", "p2"), ("/r2/c.patch", "p3")]

/-- Witness for C1: with three declared patches whose second fails to
apply, the pipeline returns 1, the trace shows the first patch fully
processed and the failing apply of the second, the third patch is never
attempted, and exactly one commit was made. -/
theorem apply_patches_pipeline_witness :
    apply_patches_async patchEnvA patchRepoA =
      (.code 1,
       [.prepare 0,
        .applyP "/r2/a.patch" "p1" 0, .addP "/r2/a.patch" "p1" 0,
        .commitP "/r2/a.patch" "p1" 0,
        .applyP "/r2/b.patch" "p2" 1]) ∧
    commitCount (apply_patches_async patchEnvA patchRepoA).2 = 1 := by
  have h := (apply_patches_pipeline patchEnvA patchRepoA patchPairsA
      rfl rfl rfl rfl).2 1 (by decide) (by decide) (by decide)
  obtain ⟨heq, hcount⟩ := h
  refine ⟨?_, hcount⟩
  rw [heq]
  decide

/-! ## Claim C2 -/

/-- A resolution failure of `resolvePatches` is never exit code 0. -/
theorem resolvePatches_error_ne_code0 (env : PatchEnv) (ps : List PatchDecl)
    (e : PRes) (h : resolvePatches env ps = .error e) : e ≠ .code 0 := by
  induction ps with
  | nil => simp [resolvePatches] at h
  | cons patch rest ih =>
      cases hreg : env.repoPath patch.repo with
      | none =>
          simp only [resolvePatches, hreg] at h
          cases h
          decide
      | some rpath =>
          simp only [resolvePatches, hreg] at h
          by_cases hf : env.isFile (posixJoin rpath patch.path)
          · simp only [hf, if_true] at h
            cases hrec : resolvePatches env rest with
            | error e2 =>
                rw [hrec] at h
                cases h
                exact ih hrec
            | ok l => rw [hrec] at h; cases h
          · simp only [hf, Bool.false_eq_true, if_false] at h
            by_cases hd : (env.isDir (posixJoin rpath patch.path) &&
                env.isFile (posixJoin (posixJoin rpath patch.path) "series")) = true
            · simp only [hd, if_true] at h
              cases hser : resolveSeries env.isFile (posixJoin rpath patch.path)
                  (env.seriesLines (posixJoin (posixJoin rpath patch.path) "series")) with
              | error se =>
                  rw [hser] at h
                  cases se with
                  | emptyName ln => cases h; decide
                  | notFound p => cases h; simp
              | ok paths =>
                  rw [hser] at h
                  cases hrec : resolvePatches env rest with
                  | error e2 =>
                      rw [hrec] at h
                      cases h
                      exact ih hrec
                  | ok l => rw [hrec] at h; cases h
            · simp only [hd, Bool.false_eq_true, if_false] at h
              cases h
              decide

/-- An event for one of the apply, stage-all, or commit commands. -/
def isPatchCmd : AEvent → Bool
  | .prepare _ => false
  | _ => true

/-- C2: `apply_patches_async` resolves all declared patch entries before
applying any of them: if resolution of any entry fails (missing patch repo,
path neither file nor series directory, malformed series line, or missing
series-listed file), the operation fails without having executed any
apply, stage-all, or commit command. -/
theorem apply_patches_resolution_first (env : PatchEnv) (r : KRepo) (e : PRes)
    (hdis : r.operations_disabled = false)
    (hne : r.patches.isEmpty = false)
    (hres : resolvePatches env r.patches = .error e) :
    (apply_patches_async env r).1 ≠ .code 0 ∧
    ∀ ev ∈ (apply_patches_async env r).2, isPatchCmd ev = false := by
  by_cases hp : env.prepareRetc = 0
  · have hunf : apply_patches_async env r = (e, [.prepare env.prepareRetc]) := by
      simp [apply_patches_async, hdis, hne, hp, hres]
    rw [hunf]
    exact ⟨resolvePatches_error_ne_code0 env r.patches e hres,
           by simp [isPatchCmd]⟩
  · have hunf : apply_patches_async env r =
        (.code env.prepareRetc, [.prepare env.prepareRetc]) := by
      simp [apply_patches_async, hdis, hne, hp]
    rw [hunf]
    refine ⟨?_, by simp [isPatchCmd]⟩
    intro hcontra
    exact hp (PRes.code.inj hcontra)

/-- Concrete data for the C2 witness: a single declared patch whose
repository name is missing from the registry. -/
def patchEnvB : PatchEnv where
  repoPath := fun _ => none
  isFile := fun _ => false
  isDir := fun _ => false
  seriesLines := fun _ => []
  prepareRetc := 0
  applyRetc := fun _ => 0
  addRetc := fun _ => 0
  commitRetc := fun _ => 0

def patchRepoB : KRepo where
  name := "main"
  path := "/work/main"
  qualified_name := "example.com.main"
  refspec := some "master"
  operations_disabled := false
  variant := .git
  patches := [⟨"p1", "missing", "x.patch"⟩]

/-- Witness for C2: the missing registry entry makes the pipeline fail
with no apply, stage-all, or commit command executed. -/
theorem apply_patches_resolution_first_witness :
    (apply_patches_async patchEnvB patchRepoB).1 ≠ .code 0 ∧
    ∀ ev ∈ (apply_patches_async patchEnvB patchRepoB).2, isPatchCmd ev = false :=
  apply_patches_resolution_first patchEnvB patchRepoB (.code 1) rfl rfl rfl

/-! ## Claim C7 -/

/-- A series line is unproblematic: if it is processed at all, its
extracted name is non-empty and resolves to an existing file. -/
abbrev seriesLineOk (isFile : String → Bool) (dir : String) (l : String) : Prop :=
  seriesKeep l = true →
    seriesName l ≠ "" ∧ isFile (posixJoin dir (seriesName l)) = true

theorem resolveSeriesAux_ok (isFile : String → Bool) (dir : String)
    (lines : List String) (ln : Nat)
    (h : ∀ l ∈ lines, seriesLineOk isFile dir l) :
    resolveSeriesAux isFile dir ln lines =
      .ok ((lines.filter seriesKeep).map (fun l => posixJoin dir (seriesName l))) := by
  induction lines generalizing ln with
  | nil => rfl
  | cons line rest ih =>
      by_cases hk : seriesKeep line = true
      · obtain ⟨hn, hf⟩ := h line (by simp) hk
        have hn2 : (seriesName line == "") = false := beq_false_of_ne hn
        simp only [resolveSeriesAux, hk, if_true, hn2, Bool.false_eq_true,
                   if_false, hf]
        rw [ih (ln + 1) (fun l hl => h l (by simp [hl]))]
        simp [List.filter_cons, hk]
      · have hk2 : seriesKeep line = false := by
          cases hkk : seriesKeep line
          · rfl
          · exact absurd hkk hk
        simp only [resolveSeriesAux, hk2, Bool.false_eq_true, if_false]
        rw [ih (ln + 1) (fun l hl => h l (by simp [hl]))]
        simp [List.filter_cons, hk2]

theorem resolveSeriesAux_emptyName (isFile : String → Bool) (dir : String)
    (pre : List String) (l : String) (post : List String) (ln : Nat)
    (hpre : ∀ m ∈ pre, seriesLineOk isFile dir m)
    (hk : seriesKeep l = true) (hempty : seriesName l = "") :
    resolveSeriesAux isFile dir ln (pre ++ l :: post) =
      .error (.emptyName (ln + pre.length)) := by
  induction pre generalizing ln with
  | nil =>
      have he : (seriesName l == "") = true := beq_iff_eq.mpr hempty
      simp [resolveSeriesAux, hk, he]
  | cons m pre ih =>
      have hrec := ih (ln + 1) (fun q hq => hpre q (by simp [hq]))
      have harith : ln + 1 + pre.length = ln + (pre.length + 1) := by omega
      by_cases hkm : seriesKeep m = true
      · obtain ⟨hn, hf⟩ := hpre m (by simp) hkm
        have hn2 : (seriesName m == "") = false := beq_false_of_ne hn
        simp only [List.cons_append, resolveSeriesAux, hkm, if_true, hn2,
                   Bool.false_eq_true, if_false, hf]
        simp only [List.append_eq]
        rw [hrec]
        simp [harith]
      · have hk2 : seriesKeep m = false := by
          cases hkk : seriesKeep m
          · rfl
          · exact absurd hkk hkm
        simp only [List.cons_append, resolveSeriesAux, hk2, Bool.false_eq_true,
                   if_false]
        simp only [List.append_eq]
        rw [hrec]
        simp [harith]

theorem resolveSeriesAux_notFound (isFile : String → Bool) (dir : String)
    (pre : List String) (l : String) (post : List String) (ln : Nat)
    (hpre : ∀ m ∈ pre, seriesLineOk isFile dir m)
    (hk : seriesKeep l = true) (hname : seriesName l ≠ "")
    (hmiss : isFile (posixJoin dir (seriesName l)) = false) :
    resolveSeriesAux isFile dir ln (pre ++ l :: post) =
      .error (.notFound (posixJoin dir (seriesName l))) := by
  induction pre generalizing ln with
  | nil =>
      have hn2 : (seriesName l == "") = false := beq_false_of_ne hname
      simp [resolveSeriesAux, hk, hn2, hmiss]
  | cons m pre ih =>
      have hrec := ih (ln + 1) (fun q hq => hpre q (by simp [hq]))
      by_cases hkm : seriesKeep m = true
      · obtain ⟨hn, hf⟩ := hpre m (by simp) hkm
        have hn2 : (seriesName m == "") = false := beq_false_of_ne hn
        simp only [List.cons_append, resolveSeriesAux, hkm, if_true, hn2,
                   Bool.false_eq_true, if_false, hf]
        simp only [List.append_eq]
        rw [hrec]
      · have hk2 : seriesKeep m = false := by
          cases hkk : seriesKeep m
          · rfl
          · exact absurd hkk hkm
        simp only [List.cons_append, resolveSeriesAux, hk2, Bool.false_eq_true,
                   if_false]
        simp only [List.append_eq]
        rw [hrec]

/-- C7: series-file parsing skips blank lines and lines beginning with `#`;
every other line yields the text before the first occurrence of the
two-character delimiter `" #"`, right-trimmed and joined to the directory,
in line order; a kept line whose extracted name is empty is a fatal parse
error reporting its line number; and a kept line whose resolved name does
not name an existing file raises a missing-file failure with that path. -/
theorem series_file_parsing (isFile : String → Bool) (dir : String)
    (lines : List String) :
    ((∀ l ∈ lines, seriesLineOk isFile dir l) →
       resolveSeries isFile dir lines =
         .ok ((lines.filter seriesKeep).map (fun l => posixJoin dir (seriesName l)))) ∧
    (∀ pre l post, lines = pre ++ l :: post →
       (∀ m ∈ pre, seriesLineOk isFile dir m) →
       seriesKeep l = true → seriesName l = "" →
       resolveSeries isFile dir lines = .error (.emptyName (pre.length + 1))) ∧
    (∀ pre l post, lines = pre ++ l :: post →
       (∀ m ∈ pre, seriesLineOk isFile dir m) →
       seriesKeep l = true → seriesName l ≠ "" →
       isFile (posixJoin dir (seriesName l)) = false →
       resolveSeries isFile dir lines =
         .error (.notFound (posixJoin dir (seriesName l)))) := by
  refine ⟨fun h => resolveSeriesAux_ok isFile dir lines 1 h, ?_, ?_⟩
  · intro pre l post hsplit hpre hk hempty
    rw [hsplit]
    unfold resolveSeries
    rw [resolveSeriesAux_emptyName isFile dir pre l post 1 hpre hk hempty]
    congr 2
    omega
  · intro pre l post hsplit hpre hk hname hmiss
    rw [hsplit]
    exact resolveSeriesAux_notFound isFile dir pre l post 1 hpre hk hname hmiss

/-- Concrete filesystem for the C7 witness. -/
def seriesFilesC : String → Bool :=
  fun p => p == "/d/foo.patch" || p == "/d/bar.patch"

/-- Witness for C7: the series lines `foo.patch`, `# comment`, a blank
line, `bar.patch # note` yield exactly the two patch paths in order. -/
theorem series_file_parsing_witness :
    resolveSeries seriesFilesC "/d"
        ["foo.patch", "# comment", "", "bar.patch # note"] =
      .ok ["/d/foo.patch", "/d/bar.patch"] := by
  have h := (series_file_parsing seriesFilesC "/d"
      ["foo.patch", "# comment", "", "bar.patch # note"]).1 (by decide)
  rw [h]
  exact rfl

/-! ## Fetch model (RepoImpl.fetch_async, src/kas/repos.py lines 178-255) -/

/-- Trace of the external commands and filesystem actions performed by one
run of `fetch_async`.  `cloneWorkTree` records the source directory passed
to `clone_cmd` (the cache directory when a reference directory is
configured, otherwise none, meaning the effective URL is used). -/
inductive FEvent where
  | cloneRef (retc : Nat)
  | renameCache (won : Bool)
  | mkdirParents
  | cloneWorkTree (srcdir : Option String) (retc : Nat)
  | setRemoteUrl (retc : Nat)
  | setRemoteUnsupported
  | containsRefspec (retc : Nat)
  | fetchCmd (retc : Nat)
deriving DecidableEq

/-- The context flags read by `fetch_async`: the optional shared
reference-cache root (`kas_repo_ref_dir`) and the global update flag. -/
structure FetchCtx where
  refdir : Option String
  update : Bool

/-- Modelled from the spec: the Command Runner (`libkas.run_cmd_async`) is
not part of src/; per the specification it executes a command and returns
the exit code and captured text (it does not itself abort the caller).
This environment provides the filesystem-existence snapshot and the exit
code of each command one run of `fetch_async` may issue; `renameWins` tells
whether the atomic rename into the cache path succeeds or raises `OSError`
because another synchronization won the race. -/
structure FetchEnv where
  pathExists : String → Bool
  cloneRefRetc : Nat
  renameWins : Bool
  cloneRetc : Nat
  setRemoteRetc : Nat
  containsRetc : Nat
  fetchRetc : Nat

/-- Steps of `fetch_async` from the refspec check on (src/kas/repos.py
lines 232-255): no refspec returns 0; without the update flag a
`containsRefspec` exit code of 0 returns it (the short circuit); otherwise
the fetch command runs with its non-zero exit code downgraded to a warning,
and 0 is returned. -/
def fetchRefspecSteps (r : KRepo) (ctx : FetchCtx) (env : FetchEnv)
    (acc : List FEvent) : Nat × List FEvent :=
  match r.refspec with
  | none => (0, acc)
  | some _ =>
    if ctx.update = false then
      let rc := env.containsRetc
      if rc = 0 then (rc, acc ++ [.containsRefspec rc])
      else (0, acc ++ [.containsRefspec rc, .fetchCmd env.fetchRetc])
    else (0, acc ++ [.fetchCmd env.fetchRetc])

/-- Step of `fetch_async` resetting the remote URL (src/kas/repos.py lines
220-229): the Git variant runs the command and returns a non-zero exit
code; the Mercurial variant raises `NotImplementedError`, caught and
downgraded to a warning. -/
def fetchRemoteStep (r : KRepo) (ctx : FetchCtx) (env : FetchEnv)
    (acc : List FEvent) : Nat × List FEvent :=
  match r.variant with
  | .git =>
    let rc := env.setRemoteRetc
    if rc ≠ 0 then (rc, acc ++ [.setRemoteUrl rc])
    else fetchRefspecSteps r ctx env (acc ++ [.setRemoteUrl rc])
  | .hg => fetchRefspecSteps r ctx env (acc ++ [.setRemoteUnsupported])

/-- Step of `fetch_async` cloning the working tree when its path does not
exist (src/kas/repos.py lines 210-216): parent directories are created and
`clone_cmd(sdir, createref=False)` is run; the source checks the exit code
only to log success and proceeds to the remote-URL step in every case. -/
def fetchCloneStep (r : KRepo) (ctx : FetchCtx) (env : FetchEnv)
    (sdir : Option String) (acc : List FEvent) : Nat × List FEvent :=
  if env.pathExists r.path then fetchRemoteStep r ctx env acc
  else
    fetchRemoteStep r ctx env
      (acc ++ [.mkdirParents, .cloneWorkTree sdir env.cloneRetc])

/-- Step of `fetch_async` populating the reference cache (src/kas/repos.py
lines 186-208): when a cache root is configured and the cache entry for
`qualified_name` does not exist, clone into a temporary directory (a
non-zero exit code is returned), then atomically rename it into place,
treating a rename failure as success. -/
def fetchRefStep (r : KRepo) (ctx : FetchCtx) (env : FetchEnv) :
    Nat × List FEvent :=
  match ctx.refdir with
  | none => fetchCloneStep r ctx env none []
  | some rd =>
    let sdir := posixJoin rd r.qualified_name
    if env.pathExists sdir then fetchCloneStep r ctx env (some sdir) []
    else
      let rc := env.cloneRefRetc
      if rc ≠ 0 then (rc, [.cloneRef rc])
      else fetchCloneStep r ctx env (some sdir)
        [.cloneRef rc, .renameCache env.renameWins]

/-- Embeds `RepoImpl.fetch_async` (src/kas/repos.py lines 178-255). -/
def fetch_async (r : KRepo) (ctx : FetchCtx) (env : FetchEnv) :
    Nat × List FEvent :=
  if r.operations_disabled then (0, []) else fetchRefStep r ctx env

/-! ## Claim C4 -/

/-- C4: for a repository with a refspec, when the update flag is unset and
the `containsRefspec` query exits 0, `fetch_async` returns success without
executing the fetch command, so a second run against an up-to-date
repository performs no network fetch (assuming the preceding steps did not
already fail: a configured cache entry exists or is cloned successfully,
and the remote-URL update succeeds when supported). -/
theorem fetch_already_contains_refspec (r : KRepo) (ctx : FetchCtx)
    (env : FetchEnv) (rs : String)
    (hdis : r.operations_disabled = false)
    (hrs : r.refspec = some rs)
    (hupd : ctx.update = false)
    (hcontains : env.containsRetc = 0)
    (hrefdir : ∀ rd, ctx.refdir = some rd →
        env.pathExists (posixJoin rd r.qualified_name) = true ∨
        env.cloneRefRetc = 0)
    (hremote : r.variant = Variant.git → env.setRemoteRetc = 0) :
    (fetch_async r ctx env).1 = 0 ∧
    ∀ rc, FEvent.fetchCmd rc ∉ (fetch_async r ctx env).2 := by
  have hmain : ∀ acc : List FEvent,
      fetchRefspecSteps r ctx env acc = (0, acc ++ [.containsRefspec 0]) := by
    intro acc
    simp [fetchRefspecSteps, hrs, hupd, hcontains]
  have hrem : ∀ acc : List FEvent, ∃ evs,
      fetchRemoteStep r ctx env acc = (0, acc ++ evs) ∧
      ∀ rc, FEvent.fetchCmd rc ∉ evs := by
    intro acc
    cases hv : r.variant with
    | git =>
        have hsr := hremote hv
        exact ⟨[.setRemoteUrl 0, .containsRefspec 0],
          by simp [fetchRemoteStep, hv, hsr, hmain], by simp⟩
    | hg =>
        exact ⟨[.setRemoteUnsupported, .containsRefspec 0],
          by simp [fetchRemoteStep, hv, hmain], by simp⟩
  have hclone : ∀ (sdir : Option String) (acc : List FEvent), ∃ evs,
      fetchCloneStep r ctx env sdir acc = (0, acc ++ evs) ∧
      ∀ rc, FEvent.fetchCmd rc ∉ evs := by
    intro sdir acc
    cases hpe : env.pathExists r.path with
    | true =>
        obtain ⟨evs, heq, hno⟩ := hrem acc
        exact ⟨evs, by simp [fetchCloneStep, hpe, heq], hno⟩
    | false =>
        obtain ⟨evs, heq, hno⟩ :=
          hrem (acc ++ [.mkdirParents, .cloneWorkTree sdir env.cloneRetc])
        refine ⟨[.mkdirParents, .cloneWorkTree sdir env.cloneRetc] ++ evs,
          ?_, ?_⟩
        · simp only [fetchCloneStep, hpe, Bool.false_eq_true, if_false]
          rw [heq]
          simp
        · intro rc hm
          rcases List.mem_append.mp hm with h | h
          · simp at h
          · exact hno rc h
  have hfetch : fetch_async r ctx env = fetchRefStep r ctx env := by
    simp [fetch_async, hdis]
  rw [hfetch]
  cases hrd : ctx.refdir with
  | none =>
      obtain ⟨evs, heq, hno⟩ := hclone none []
      rw [show fetchRefStep r ctx env = fetchCloneStep r ctx env none [] from
          by simp [fetchRefStep, hrd], heq]
      exact ⟨rfl, fun rc hm => hno rc (by simpa using hm)⟩
  | some rd =>
      cases hex : env.pathExists (posixJoin rd r.qualified_name) with
      | true =>
          obtain ⟨evs, heq, hno⟩ := hclone (some (posixJoin rd r.qualified_name)) []
          rw [show fetchRefStep r ctx env =
              fetchCloneStep r ctx env (some (posixJoin rd r.qualified_name)) [] from
              by simp [fetchRefStep, hrd, hex], heq]
          exact ⟨rfl, fun rc hm => hno rc (by simpa using hm)⟩
      | false =>
          have hrc : env.cloneRefRetc = 0 := by
            rcases hrefdir rd hrd with h | h
            · rw [hex] at h; cases h
            · exact h
          obtain ⟨evs, heq, hno⟩ := hclone (some (posixJoin rd r.qualified_name))
            [.cloneRef 0, .renameCache env.renameWins]
          rw [show fetchRefStep r ctx env =
              fetchCloneStep r ctx env (some (posixJoin rd r.qualified_name))
                [.cloneRef 0, .renameCache env.renameWins] from
              by simp [fetchRefStep, hrd, hex, hrc], heq]
          refine ⟨rfl, fun rc hm => ?_⟩
          rcases List.mem_append.mp hm with h | h
          · simp at h
          · exact hno rc h

/-- Concrete data for the C4 witness: a cache root whose entry is missing
but clones successfully, an existing working tree, an up-to-date refspec. -/
def fetchRepoC : KRepo where
  name := "main"
  path := "/work/main"
  qualified_name := "example.com.main"
  refspec := some "master"
  operations_disabled := false
  variant := .git
  patches := []

def fetchCtxC4 : FetchCtx where
  refdir := some "/refs"
  update := false

def fetchEnvC4 : FetchEnv where
  pathExists := fun p => p == "/work/main"
  cloneRefRetc := 0
  renameWins := true
  cloneRetc := 0
  setRemoteRetc := 0
  containsRetc := 0
  fetchRetc := 0

/-- Witness for C4: the concrete run returns 0 and never executes the
fetch command. -/
theorem fetch_already_contains_refspec_witness :
    (fetch_async fetchRepoC fetchCtxC4 fetchEnvC4).1 = 0 ∧
    ∀ rc, FEvent.fetchCmd rc ∉ (fetch_async fetchRepoC fetchCtxC4 fetchEnvC4).2 :=
  fetch_already_contains_refspec fetchRepoC fetchCtxC4 fetchEnvC4 "master"
    rfl rfl rfl rfl
    (fun rd h => by injection h with h2; subst h2; exact Or.inr rfl)
    (fun _ => rfl)

/-! ## Claim C5 -/

/-- C5: once `fetch_async` reaches the final fetch step (a refspec is
present and the contains-refspec short circuit did not fire, because the
update flag is set or the query failed), it returns 0 regardless of the
fetch command's exit code: the non-zero result is downgraded to a warning
(assuming the preceding steps did not already fail, as in C4). -/
theorem fetch_failure_downgraded (r : KRepo) (ctx : FetchCtx)
    (env : FetchEnv) (rs : String)
    (hdis : r.operations_disabled = false)
    (hrs : r.refspec = some rs)
    (hmiss : ctx.update = true ∨ env.containsRetc ≠ 0)
    (hrefdir : ∀ rd, ctx.refdir = some rd →
        env.pathExists (posixJoin rd r.qualified_name) = true ∨
        env.cloneRefRetc = 0)
    (hremote : r.variant = Variant.git → env.setRemoteRetc = 0) :
    (fetch_async r ctx env).1 = 0 ∧
    FEvent.fetchCmd env.fetchRetc ∈ (fetch_async r ctx env).2 := by
  have hmain : ∀ acc : List FEvent, ∃ evs,
      fetchRefspecSteps r ctx env acc = (0, acc ++ evs) ∧
      FEvent.fetchCmd env.fetchRetc ∈ evs := by
    intro acc
    rcases hmiss with hupd | hc
    · exact ⟨[.fetchCmd env.fetchRetc],
        by simp [fetchRefspecSteps, hrs, hupd], by simp⟩
    · cases hupd : ctx.update with
      | true => exact ⟨[.fetchCmd env.fetchRetc],
          by simp [fetchRefspecSteps, hrs, hupd], by simp⟩
      | false =>
          exact ⟨[.containsRefspec env.containsRetc, .fetchCmd env.fetchRetc],
            by simp [fetchRefspecSteps, hrs, hupd, hc], by simp⟩
  have hrem : ∀ acc : List FEvent, ∃ evs,
      fetchRemoteStep r ctx env acc = (0, acc ++ evs) ∧
      FEvent.fetchCmd env.fetchRetc ∈ evs := by
    intro acc
    cases hv : r.variant with
    | git =>
        have hsr := hremote hv
        obtain ⟨evs, heq, hm⟩ := hmain (acc ++ [.setRemoteUrl 0])
        refine ⟨[.setRemoteUrl 0] ++ evs, ?_, by simp [hm]⟩
        simp only [fetchRemoteStep, hv, hsr, ne_eq, not_true_eq_false,
                   if_false, ite_false, not_false_eq_true]
        rw [heq]
        simp
    | hg =>
        obtain ⟨evs, heq, hm⟩ := hmain (acc ++ [.setRemoteUnsupported])
        refine ⟨[.setRemoteUnsupported] ++ evs, ?_, by simp [hm]⟩
        simp only [fetchRemoteStep, hv]
        rw [heq]
        simp
  have hclone : ∀ (sdir : Option String) (acc : List FEvent), ∃ evs,
      fetchCloneStep r ctx env sdir acc = (0, acc ++ evs) ∧
      FEvent.fetchCmd env.fetchRetc ∈ evs := by
    intro sdir acc
    cases hpe : env.pathExists r.path with
    | true =>
        obtain ⟨evs, heq, hm⟩ := hrem acc
        exact ⟨evs, by simp [fetchCloneStep, hpe, heq], hm⟩
    | false =>
        obtain ⟨evs, heq, hm⟩ :=
          hrem (acc ++ [.mkdirParents, .cloneWorkTree sdir env.cloneRetc])
        refine ⟨[.mkdirParents, .cloneWorkTree sdir env.cloneRetc] ++ evs,
          ?_, by simp [hm]⟩
        simp only [fetchCloneStep, hpe, Bool.false_eq_true, if_false]
        rw [heq]
        simp
  have hfetch : fetch_async r ctx env = fetchRefStep r ctx env := by
    simp [fetch_async, hdis]
  rw [hfetch]
  cases hrd : ctx.refdir with
  | none =>
      obtain ⟨evs, heq, hm⟩ := hclone none []
      rw [show fetchRefStep r ctx env = fetchCloneStep r ctx env none [] from
          by simp [fetchRefStep, hrd], heq]
      exact ⟨rfl, by simpa using hm⟩
  | some rd =>
      cases hex : env.pathExists (posixJoin rd r.qualified_name) with
      | true =>
          obtain ⟨evs, heq, hm⟩ := hclone (some (posixJoin rd r.qualified_name)) []
          rw [show fetchRefStep r ctx env =
              fetchCloneStep r ctx env (some (posixJoin rd r.qualified_name)) [] from
              by simp [fetchRefStep, hrd, hex], heq]
          exact ⟨rfl, by simpa using hm⟩
      | false =>
          have hrc : env.cloneRefRetc = 0 := by
            rcases hrefdir rd hrd with h | h
            · rw [hex] at h; cases h
            · exact h
          obtain ⟨evs, heq, hm⟩ := hclone (some (posixJoin rd r.qualified_name))
            [.cloneRef 0, .renameCache env.renameWins]
          rw [show fetchRefStep r ctx env =
              fetchCloneStep r ctx env (some (posixJoin rd r.qualified_name))
                [.cloneRef 0, .renameCache env.renameWins] from
              by simp [fetchRefStep, hrd, hex, hrc], heq]
          exact ⟨rfl, by simp [hm]⟩

/-- Concrete data for the C5 witness: no cache root, existing working
tree, a failing fetch command. -/
def fetchCtxC5 : FetchCtx where
  refdir := none
  update := false

def fetchEnvC5 : FetchEnv where
  pathExists := fun p => p == "/work/main"
  cloneRefRetc := 0
  renameWins := true
  cloneRetc := 0
  setRemoteRetc := 0
  containsRetc := 1
  fetchRetc := 128

/-- Witness for C5: the fetch command fails with 128 yet the run returns 0
and the fetch command was executed. -/
theorem fetch_failure_downgraded_witness :
    (fetch_async fetchRepoC fetchCtxC5 fetchEnvC5).1 = 0 ∧
    FEvent.fetchCmd 128 ∈ (fetch_async fetchRepoC fetchCtxC5 fetchEnvC5).2 :=
  fetch_failure_downgraded fetchRepoC fetchCtxC5 fetchEnvC5 "master"
    rfl rfl (Or.inr (by decide))
    (fun rd h => by cases h)
    (fun _ => rfl)

/-! ## Claim C3 -/

/-- Concrete data exhibiting the C3 divergence: no cache root, the working
tree path does not exist, and the clone command fails with exit code 128
while the subsequent remote-URL update succeeds. -/
def fetchCtxC3 : FetchCtx where
  refdir := none
  update := false

def fetchEnvC3 : FetchEnv where
  pathExists := fun _ => false
  cloneRefRetc := 0
  renameWins := true
  cloneRetc := 128
  setRemoteRetc := 0
  containsRetc := 0
  fetchRetc := 0

def fetchRepoC3 : KRepo where
  name := "main"
  path := "/work/main"
  qualified_name := "example.com.main"
  refspec := none
  operations_disabled := false
  variant := .git
  patches := []

/-- C3, evaluated at the failing input: when the working-tree path does not
exist, parent directories are created and a clone from the effective URL is
performed (the claimed first half holds), but a clone exit code of 128 does
not abort the fetch: the source only checks the exit code to log success
(src/kas/repos.py lines 210-216), so the run proceeds to the remote-URL
step and returns 0 instead of 128. -/
theorem fetch_clone_failure_not_fatal :
    fetch_async fetchRepoC3 fetchCtxC3 fetchEnvC3 =
      (0, [.mkdirParents, .cloneWorkTree none 128, .setRemoteUrl 0]) ∧
    (fetch_async fetchRepoC3 fetchCtxC3 fetchEnvC3).1 ≠ 128 := by
  constructor
  · rfl
  · decide

/-! ## Checkout model (RepoImpl.checkout, src/kas/repos.py lines 257-282) -/

/-- Trace of the commands run by `checkout`: the dirty check, the branch
resolution, and the final checkout with its desired ref and branch flag. -/
inductive CEvent where
  | isDirtyCmd
  | resolveBranchCmd
  | checkoutCmd (ref : String) (isBranch : Bool) (force : Bool)
deriving DecidableEq

/-- Modelled from the spec: the Command Runner (`libkas.run_cmd`) is not
part of src/; per the specification it returns the exit code and captured
text.  The environment provides the captured output of the dirty check and
of the branch resolution. -/
structure CheckoutEnv where
  isDirtyOut : String
  resolveBranchOut : String

/-- Embeds `RepoImpl.checkout` (src/kas/repos.py lines 257-282): skip when
operations are disabled or no refspec is set; without the force flag a
non-empty dirty-check output skips the checkout with a warning; otherwise
a non-empty branch resolution selects a branch checkout of the stripped
output and an empty one a detached checkout of the refspec. -/
def checkout (r : KRepo) (force_checkout : Bool) (env : CheckoutEnv) :
    List CEvent :=
  if r.operations_disabled then []
  else
    match r.refspec with
    | none => []
    | some rs =>
      if force_checkout = false ∧ env.isDirtyOut ≠ "" then [.isDirtyCmd]
      else
        let pre : List CEvent := if force_checkout then [] else [.isDirtyCmd]
        if env.resolveBranchOut ≠ "" then
          pre ++ [.resolveBranchCmd,
                  .checkoutCmd (pyStrip env.resolveBranchOut) true force_checkout]
        else
          pre ++ [.resolveBranchCmd, .checkoutCmd rs false force_checkout]

/-! ## Claim C6 -/

/-- C6: for a repository with a refspec and operations enabled, when the
force-checkout flag is unset and the dirty check produces any non-empty
output, `checkout` returns after only the dirty check: the resolve-branch
and checkout commands are not executed, the working tree is left unchanged,
and the skip is not a failure (the procedure simply returns). -/
theorem checkout_dirty_skip (r : KRepo) (env : CheckoutEnv) (rs : String)
    (hdis : r.operations_disabled = false)
    (hrs : r.refspec = some rs)
    (hdirty : env.isDirtyOut ≠ "") :
    checkout r false env = [.isDirtyCmd] := by
  simp [checkout, hdis, hrs, hdirty]

/-- Concrete data for the C6 witness. -/
def checkoutEnvC : CheckoutEnv where
  isDirtyOut := " M file.c"
  resolveBranchOut := ""

/-- Witness for C6 at a concrete dirty repository. -/
theorem checkout_dirty_skip_witness :
    checkout fetchRepoC false checkoutEnvC = [.isDirtyCmd] :=
  checkout_dirty_skip fetchRepoC checkoutEnvC "master" rfl rfl (by decide)

/-! ## Reference-cache race model (src/kas/repos.py lines 186-208)

Two concurrent `fetch_async` runs for the same `qualified_name` interleave
at the boundaries of the reference-cache block: the existence check
(creating a uniquely named temporary directory when the cache is absent),
the clone into the temporary directory, and the atomic rename into the
canonical cache path, whose failure with `OSError` (destination already
present, the race lost) is caught and treated as success while the
temporary directory is discarded by the context manager.  No lock is
taken: the state carries only the cache-existence flag and the number of
live temporary directories. -/

/-- Program counter of one process inside the reference-cache block. -/
inductive CachePc where
  | start
  | cloning
  | renaming
  | done (ret : Nat)
deriving DecidableEq

/-- Shared state: whether the canonical cache path exists, how many
temporary directories are alive, and both program counters. -/
structure CacheSys where
  cache : Bool
  temps : Nat
  p1 : CachePc
  p2 : CachePc
deriving DecidableEq

/-- One atomic step of a single process, parameterized by its clone exit
code: the existence check either skips the whole block (cache present) or
creates a temporary directory; a failing clone discards the temporary
directory and returns the exit code; the atomic rename either moves the
temporary directory into place or, when the destination appeared in the
meantime, discards it and continues as success. -/
def cacheProcStep (cloneRetc : Nat) (cache : Bool) (temps : Nat) :
    CachePc → Bool × Nat × CachePc
  | .start =>
      if cache then (cache, temps, .done 0)
      else (cache, temps + 1, .cloning)
  | .cloning =>
      if cloneRetc ≠ 0 then (cache, temps - 1, .done cloneRetc)
      else (cache, temps, .renaming)
  | .renaming =>
      if cache then (cache, temps - 1, .done 0)
      else (true, temps - 1, .done 0)
  | .done r => (cache, temps, .done r)

/-- Interleaving: the scheduler picks which process performs its next
atomic step. -/
def cacheSysStep (c1 c2 : Nat) (s : CacheSys) (choice : Bool) : CacheSys :=
  if choice then
    let r := cacheProcStep c1 s.cache s.temps s.p1
    { cache := r.1, temps := r.2.1, p1 := r.2.2, p2 := s.p2 }
  else
    let r := cacheProcStep c2 s.cache s.temps s.p2
    { cache := r.1, temps := r.2.1, p1 := s.p1, p2 := r.2.2 }

/-- Run a whole schedule. -/
def cacheRun (c1 c2 : Nat) : List Bool → CacheSys → CacheSys
  | [], s => s
  | choice :: rest, s => cacheRun c1 c2 rest (cacheSysStep c1 c2 s choice)

/-- Initial state: no pre-existing cache entry, no temporary directory. -/
def cacheInit : CacheSys where
  cache := false
  temps := 0
  p1 := .start
  p2 := .start

def isMid : CachePc → Bool
  | .cloning => true
  | .renaming => true
  | _ => false

def isDone : CachePc → Bool
  | .done _ => true
  | _ => false

/-- Invariant of the race with successful clones: the temporary-directory
count equals the number of processes inside the block, a finished process
finished with success, and as soon as a process is done the cache exists. -/
def CacheInv (s : CacheSys) : Prop :=
  s.temps = (if isMid s.p1 then 1 else 0) + (if isMid s.p2 then 1 else 0) ∧
  (∀ r, s.p1 = .done r → r = 0) ∧
  (∀ r, s.p2 = .done r → r = 0) ∧
  ((isDone s.p1 || isDone s.p2) = true → s.cache = true)

theorem cacheInv_step (s : CacheSys) (choice : Bool) (h : CacheInv s) :
    CacheInv (cacheSysStep 0 0 s choice) := by
  obtain ⟨ht, h1, h2, hd⟩ := h
  cases choice <;> cases hp1 : s.p1 <;> cases hp2 : s.p2 <;>
    cases hc : s.cache <;>
    simp_all [cacheSysStep, cacheProcStep, CacheInv, isMid, isDone]

theorem cacheRun_inv (sched : List Bool) (s : CacheSys) (h : CacheInv s) :
    CacheInv (cacheRun 0 0 sched s) := by
  induction sched generalizing s with
  | nil => exact h
  | cons choice rest ih => exact ih _ (cacheInv_step s choice h)

/-! ## Claim C9 -/

/-- C9: when two fetches for the same `qualified_name` run concurrently
with no pre-existing cache entry and successful clones, under every
interleaving each clones into its own temporary directory and attempts the
atomic rename, the loser's failure is treated as success, so once both
processes have finished both succeeded (exit 0), exactly the canonical
cache directory exists, and no temporary directory is left — with no lock
taken anywhere in the model. -/
theorem reference_cache_race (sched : List Bool) (r1 r2 : Nat)
    (h1 : (cacheRun 0 0 sched cacheInit).p1 = .done r1)
    (h2 : (cacheRun 0 0 sched cacheInit).p2 = .done r2) :
    r1 = 0 ∧ r2 = 0 ∧
    (cacheRun 0 0 sched cacheInit).cache = true ∧
    (cacheRun 0 0 sched cacheInit).temps = 0 := by
  have hinv := cacheRun_inv sched cacheInit
    (by refine ⟨rfl, ?_, ?_, ?_⟩ <;> intro h <;> simp_all [cacheInit, isDone])
  obtain ⟨ht, hr1, hr2, hd⟩ := hinv
  refine ⟨hr1 r1 h1, hr2 r2 h2, hd (by simp [h1, isDone]), ?_⟩
  rw [ht, h1, h2]
  simp [isMid]

/-- Witness for C9 at a concrete schedule: the first process runs its
whole block, then the second observes the populated cache. -/
theorem reference_cache_race_witness :
    0 = 0 ∧ 0 = 0 ∧
    (cacheRun 0 0 [true, true, true, false] cacheInit).cache = true ∧
    (cacheRun 0 0 [true, true, true, false] cacheInit).temps = 0 :=
  reference_cache_race [true, true, true, false] 0 0 rfl rfl
